import Mathlib

/-!
Verification development for the lofin365 data collector
(`fetch_local_finance_data.py`, `config.py`).

The page-crawl loop `crawl_data`, the response classifier
`is_empty_response`, the completion test, the ledger guards of `main`,
and the month-end range expansion are shallowly embedded below.  The
crawl loop is modelled as a fuel-indexed interpreter of a step function
over an explicit crawl state; the HTTP server is modelled as a stream of
responses indexed by a global fetch counter (each POST, including a
verification fetch, consumes the next response of the stream).
-/

namespace Lofin

/-- One row of the API payload; rows are opaque to the crawler. -/
abbrev Row := Nat

/-- The value returned by one unit crawl: `(all_data, total_count, is_complete)`. -/
abbrev CrawlResult := List Row × Option Nat × Bool

/-- One element of the response's `QWGJK` list: an optional `row` list
(`none` models a missing `'row'` key) and an optional `head` metadata list
whose entries carry `list_total_count` when present (`some v`). -/
structure QItem where
  row : Option (List Row)
  head : Option (List (Option Nat))
deriving Repr, DecidableEq

/-- A parsed JSON body.  `withQ items` is a dict containing the top-level
`QWGJK` key (hence nonempty, hence truthy); `noQ truthy` is any other JSON
value, of which the crawler only observes Python truthiness. -/
inductive JDoc where
  | noQ (truthy : Bool)
  | withQ (items : List QItem)
deriving Repr, DecidableEq

/-- A fetched HTTP response, as the crawler distinguishes them:
* `err` — the request raised a transport exception;
* `http c` — a response with status code `c ≠ 200` (only the code is read);
* `emptyText` — status 200 whose stripped body is `"{}"` or shorter than 5 chars;
* `parseErr` — status 200 whose body fails JSON decoding;
* `ok j` — status 200 with parsed JSON body `j`. -/
inductive Resp where
  | err
  | http (code : Nat)
  | emptyText
  | parseErr
  | ok (j : JDoc)
deriving Repr, DecidableEq

/-- Function `is_empty_response` (fetch_local_finance_data.py, lines 77–92):
falsy JSON is empty; a body with the `QWGJK` key is empty when the list is
empty or every element lacks a populated `row` list. -/
def is_empty_response (j : JDoc) : Bool :=
  match j with
  | .noQ truthy => !truthy
  | .withQ items => items.isEmpty || items.all (fun it => (it.row.getD []).isEmpty)

/-- Page-1 metadata scan (lines 181–186): when the first `QWGJK` element has a
truthy `head` list, every metadata entry carrying `list_total_count`
overwrites the running total (last one wins). -/
def scanHead (items : List QItem) (old : Option Nat) : Option Nat :=
  match items.head? with
  | none => old
  | some it =>
    match it.head with
    | none => old
    | some metas =>
      if metas.isEmpty then old
      else metas.foldl (fun acc m => match m with | some v => some v | none => acc) old

/-- Row extraction (lines 189–192): concatenation of every `row` list present
across the `QWGJK` elements. -/
def rowData (items : List QItem) : List Row :=
  items.flatMap fun it => it.row.getD []

/-- Mutable state of one crawl attempt: `all_data`, `page`, `total_count`,
`empty_response_count`, plus the global fetch-stream index. -/
structure CrawlState where
  allData : List Row
  page : Nat
  totalCount : Option Nat
  emptyCount : Nat
  fidx : Nat
deriving Repr, DecidableEq

/-- Outcome of one loop iteration: continue with a new state, break out of
the loop with a final state, or hit a retryable failure (transport error,
HTTP 500/other non-200 status, JSON decode error, or an exception raised
while processing), carrying the state at the failure. -/
inductive StepRes where
  | cont (s : CrawlState)
  | done (s : CrawlState)
  | retryEx (s : CrawlState)
deriving Repr, DecidableEq

/-- Outcome of a verification fetch, shared by the two identical verification
sites (lines 219–242 and 265–288): `finish` — empty text, empty JSON
structure, undecodable JSON, or a non-200 status (all of which `break`);
`more` — nonempty JSON data (set `page = page + 1` and continue);
`ex` — the fetch itself raised, reaching the outer exception handler. -/
inductive VerifyOut where
  | finish
  | more
  | ex
deriving Repr, DecidableEq

/-- Classification of the verification-fetch response. -/
def classifyVerify : Resp → VerifyOut
  | .err => .ex
  | .http _ => .finish
  | .emptyText => .finish
  | .parseErr => .finish
  | .ok j => if is_empty_response j then .finish else .more

/-- Tail of a valid-page iteration (lines 249–291), reached when the
total-count block did not break or continue: empty row list increments the
empty counter a second time and breaks at 2; a short page (fewer rows than
`pSize`) triggers a verification fetch; a full page advances to the next
page. -/
def stepTail (maxRecords : Nat) (server : Nat → Resp) (s : CrawlState)
    (rows data : List Row) (tc : Option Nat) (ec : Nat) : StepRes :=
  if rows = [] then
    if ec + 1 ≥ 2 then
      .done ⟨data, s.page, tc, ec + 1, s.fidx + 1⟩
    else
      .cont ⟨data, s.page + 1, tc, ec + 1, s.fidx + 1⟩
  else if rows.length < maxRecords then
    match classifyVerify (server (s.fidx + 1)) with
    | .finish => .done ⟨data, s.page, tc, ec, s.fidx + 2⟩
    | .more => .cont ⟨data, s.page + 1, tc, ec, s.fidx + 2⟩
    | .ex => .retryEx ⟨data, s.page, tc, ec, s.fidx + 2⟩
  else
    .cont ⟨data, s.page + 1, tc, ec, s.fidx + 1⟩

/-- One iteration of the `while True` loop of `crawl_data` (lines 102–312).
The main fetch consumes `server s.fidx`; a verification fetch, when issued,
consumes `server (s.fidx + 1)`.

Faithful details: status 300 breaks, status 500 and any other non-200 status
take the retry path; an empty text body increments `empty_response_count`
and breaks at 2; for any other 200 body the counter is reset to 0 (line 151)
*before* the empty-JSON-structure check, whose branch then sets it to 1 and
breaks only when `all_data` is nonempty; a missing `QWGJK` key breaks; on a
valid page, the page-1 head scan may set `total_count`, rows are appended,
`total_count = 0` raises `ZeroDivisionError` at line 206 (caught by the
generic handler, hence the retry path), reaching the expected total triggers
a verification fetch, and `collection_percentage > 99.5` with no rows on the
current page breaks. -/
def step (maxRecords : Nat) (server : Nat → Resp) (s : CrawlState) : StepRes :=
  match server s.fidx with
  | .err => .retryEx { s with fidx := s.fidx + 1 }
  | .http code =>
    if code = 300 then .done { s with fidx := s.fidx + 1 }
    else .retryEx { s with fidx := s.fidx + 1 }
  | .emptyText =>
    if s.emptyCount + 1 ≥ 2 then
      .done { s with emptyCount := s.emptyCount + 1, fidx := s.fidx + 1 }
    else
      .cont { s with emptyCount := s.emptyCount + 1, page := s.page + 1, fidx := s.fidx + 1 }
  | .parseErr => .retryEx { s with emptyCount := 0, fidx := s.fidx + 1 }
  | .ok j =>
    if is_empty_response j then
      if s.allData.isEmpty then
        .cont { s with emptyCount := 1, page := s.page + 1, fidx := s.fidx + 1 }
      else
        .done { s with emptyCount := 1, fidx := s.fidx + 1 }
    else
      match j with
      | .noQ _ => .done { s with emptyCount := 0, fidx := s.fidx + 1 }
      | .withQ items =>
        let tc := if s.page = 1 then scanHead items s.totalCount else s.totalCount
        let rows := rowData items
        let data := if rows = [] then s.allData else s.allData ++ rows
        let ec := if rows = [] then 1 else 0
        match tc with
        | some T =>
          if T = 0 then
            .retryEx ⟨data, s.page, tc, ec, s.fidx + 1⟩
          else if T ≤ data.length then
            match classifyVerify (server (s.fidx + 1)) with
            | .finish => .done ⟨data, s.page, tc, ec, s.fidx + 2⟩
            | .more => .cont ⟨data, s.page + 1, tc, ec, s.fidx + 2⟩
            | .ex => .retryEx ⟨data, s.page, tc, ec, s.fidx + 2⟩
          else if 199 * T < 200 * data.length ∧ rows = [] then
            .done ⟨data, s.page, tc, ec, s.fidx + 1⟩
          else
            stepTail maxRecords server s rows data tc ec
        | none => stepTail maxRecords server s rows data tc ec

/-- The value returned when the loop exits (lines 314–325): with a known total
and fewer rows, a completion rate below 99.5% together with remaining retry
budget yields `is_complete = false`; otherwise `is_complete` is
`not total_count or len(all_data) >= total_count * 0.995`, i.e. true when the
total is unknown (`None`) or zero, or `199·T ≤ 200·collected`. -/
def finalize (maxRetries : Nat) (data : List Row) (tc : Option Nat) (retryCount : Nat) :
    CrawlResult :=
  match tc with
  | none => (data, none, true)
  | some T =>
    if data.length < T ∧ 200 * data.length < 199 * T ∧ retryCount < maxRetries then
      (data, some T, false)
    else
      (data, some T, decide (T = 0 ∨ 199 * T ≤ 200 * data.length))

/-- The state a fresh attempt starts from (`all_data = []`, `page = 1`,
no total, zero empty counter), at a given position of the fetch stream. -/
def freshState (fidx : Nat) : CrawlState :=
  ⟨[], 1, none, 0, fidx⟩

/-- Fuel-indexed interpreter of `crawl_data`: iterate `step`; a `done` exit
finalizes the attempt's state; a retryable failure restarts the entire unit
crawl from a fresh state when `retry_count < max_retries` (line 122 etc.),
and otherwise breaks, finalizing whatever the current attempt accumulated.
`none` means the fuel ran out before the crawl terminated. -/
def crawlLoop (maxRetries maxRecords : Nat) (server : Nat → Resp) :
    Nat → CrawlState → Nat → Option CrawlResult
  | 0, _, _ => none
  | fuel + 1, s, retryCount =>
    match step maxRecords server s with
    | .cont s' => crawlLoop maxRetries maxRecords server fuel s' retryCount
    | .done s' => some (finalize maxRetries s'.allData s'.totalCount retryCount)
    | .retryEx s' =>
      if retryCount < maxRetries then
        crawlLoop maxRetries maxRecords server fuel (freshState s'.fidx) (retryCount + 1)
      else
        some (finalize maxRetries s'.allData s'.totalCount retryCount)

/-- Default of `API_MAX_RETRIES` (config.py, line 28). -/
def api_max_retries : Nat := 3

/-- Default of `API_MAX_RECORDS_PER_REQUEST` (config.py, line 27). -/
def api_max_records_per_request : Nat := 1000

/-- Crawl of one `(year, exec_date)` unit against a given response stream,
starting from the given retry count and stream position, with the default
configuration. -/
def crawl_data (server : Nat → Resp) (fuel retryCount fidx : Nat) : Option CrawlResult :=
  crawlLoop api_max_retries api_max_records_per_request server fuel (freshState fidx) retryCount

/-- A response classified as retryable by the loop: transport exception,
HTTP 500 or any other non-200 and non-300 status, or a JSON decode error. -/
def isRetryableResp : Resp → Bool
  | .err => true
  | .http code => decide (code ≠ 300)
  | .emptyText => false
  | .parseErr => true
  | .ok _ => false

/-- A server that raises a transport error on every fetch. -/
def errServer : Nat → Resp := fun _ => .err

/-- A server whose every page is a status-200 JSON body with the top-level
`QWGJK` key but no populated `row` list (an empty-structure page). -/
def structServer : Nat → Resp := fun _ => .ok (.withQ [⟨none, none⟩])

/-- A server whose every page is an empty text body. -/
def emptyTextServer : Nat → Resp := fun _ => .emptyText

/-- A server that answers status 300 on every fetch. -/
def srv300 : Nat → Resp := fun _ => .http 300

/-- Page 1 carries `list_total_count = 2` and rows `[1, 2]`; every later
fetch is an empty text body. -/
def srvC4 : Nat → Resp := fun n =>
  if n = 0 then .ok (.withQ [⟨some [1, 2], some [some 2]⟩]) else .emptyText

/-- Page 1 carries `list_total_count = 100` but only 10 rows; every later
fetch is an empty text body, so the unit finishes incomplete. -/
def srvShort : Nat → Resp := fun n =>
  if n = 0 then .ok (.withQ [⟨some (List.range 10), some [some 100]⟩]) else .emptyText

/-- Every page carries `list_total_count = 0` together with the row list
`[1]`: the total is known and already reached, but the percentage
computation at line 206 divides by zero. -/
def srvT0 : Nat → Resp := fun _ => .ok (.withQ [⟨some [1], some [some 0]⟩])

/-- One persisted record of `data/incomplete_dates.json`. -/
structure IncompleteRecord where
  date : String
  year : Nat
  expected : Option Nat
  collected : Nat
  last_attempt : String
  previous_attempts : Nat
deriving Repr, DecidableEq

/-- Ledger-append guard in the range-scan modes (lines 590 and 643):
`not is_complete and total_count is not None and len(data) > 0`. -/
def rangeModeGuard (res : CrawlResult) : Bool :=
  !res.2.2 && res.2.1.isSome && decide (0 < res.1.length)

/-- Ledger-append guard in the specific-date mode (line 482): `not is_complete`. -/
def specificDateGuard (res : CrawlResult) : Bool := !res.2.2

/-- Ledger-append guard in the retry-incomplete mode (line 527): `not is_complete`. -/
def retryModeGuard (res : CrawlResult) : Bool := !res.2.2

/-- Retry-incomplete flow (lines 501–535): each ledger record is re-crawled;
records still incomplete are kept with their fields refreshed and
`previous_attempts` incremented (`item.get('previous_attempts', 0) + 1`). -/
def retryFlowNewLedger (f : IncompleteRecord → CrawlResult) (now : String)
    (ledger : List IncompleteRecord) : List IncompleteRecord :=
  ledger.filterMap fun item =>
    if (f item).2.2 then none
    else some ⟨item.date, item.year, (f item).2.1, (f item).1.length, now,
      item.previous_attempts + 1⟩

/-- Ledger file after a retry-incomplete run (line 538): the new list is
saved unconditionally, overwriting the previous file. -/
def ledgerFileAfterRetry (f : IncompleteRecord → CrawlResult) (now : String)
    (ledger : List IncompleteRecord) : List IncompleteRecord :=
  retryFlowNewLedger f now ledger

/-- Range-scan new-ledger construction (lines 590–597 and 643–650): a record
is appended per unit under `rangeModeGuard`; such records carry no
`previous_attempts` key, which a later read defaults to 0. -/
def rangeNewLedger (units : List (String × Nat)) (f : String → CrawlResult) (now : String) :
    List IncompleteRecord :=
  units.filterMap fun u =>
    let res := f u.1
    if rangeModeGuard res then some ⟨u.1, u.2, res.2.1, res.1.length, now, 0⟩ else none

/-- Ledger file after a range-scan run (lines 715–719): the new incomplete
list is saved only when nonempty; otherwise the previously persisted file is
left untouched. -/
def ledgerFileAfterRange (oldFile newIncomplete : List IncompleteRecord) :
    List IncompleteRecord :=
  if newIncomplete.isEmpty then oldFile else newIncomplete

/-- A stale ledger record for 2023-01-31 left by an earlier run. -/
def staleRecord : IncompleteRecord := ⟨"2023-01-31", 2023, some 100, 50, "t0", 0⟩

/-- Gregorian leap-year test, as used by Python's `calendar` module. -/
def isLeapYear (y : Nat) : Bool := (y % 4 = 0 && !(y % 100 = 0)) || y % 400 = 0

/-- Number of days of a month, i.e. `calendar.monthrange(year, month)[1]`. -/
def monthrangeDays (y m : Nat) : Nat :=
  if m = 2 then (if isLeapYear y then 29 else 28)
  else if m = 4 || m = 6 || m = 9 || m = 11 then 30 else 31

/-- Function `get_last_day_of_month` (lines 376–379): the date
`datetime(year, month, last_day)` as a `(year, month, day)` triple. -/
def get_last_day_of_month (y m : Nat) : Nat × Nat × Nat := (y, m, monthrangeDays y m)

/-- Month-end range expansion of `main` (lines 542–619, `all_days = false`):
for each year of the range, months run from `start_month` (first year only)
to `end_month` (last year only), otherwise 1 to 12, and each month
contributes the unit `(year, month-end date)`. -/
def expandMonthEnd (startYear endYear startMonth endMonth : Nat) :
    List (Nat × Nat × Nat × Nat) :=
  (List.range (endYear + 1 - startYear)).flatMap fun i =>
    let y := startYear + i
    let ms := if y = startYear then startMonth else 1
    let me := if y = endYear then endMonth else 12
    (List.range (me + 1 - ms)).map fun j =>
      let m := ms + j
      (y, get_last_day_of_month y m)

/-! ### Helper lemmas -/

/-- A non-empty `QWGJK` response has an element with a populated `row` list. -/
theorem exists_populated_row {items : List QItem}
    (h : is_empty_response (.withQ items) = false) :
    ∃ it ∈ items, it.row.getD [] ≠ [] := by
  simp only [is_empty_response, Bool.or_eq_false_iff] at h
  rcases List.all_eq_false.mp h.2 with ⟨it, hmem, hit⟩
  refine ⟨it, hmem, ?_⟩
  simpa using hit

/-- A non-empty `QWGJK` response has a nonempty element list. -/
theorem items_ne_nil {items : List QItem}
    (h : is_empty_response (.withQ items) = false) : items ≠ [] := by
  simp only [is_empty_response, Bool.or_eq_false_iff] at h
  simpa using h.1

/-- A non-empty `QWGJK` response yields a nonempty concatenated row list. -/
theorem rowData_ne_nil {items : List QItem}
    (h : is_empty_response (.withQ items) = false) : rowData items ≠ [] := by
  obtain ⟨it, hmem, hrow⟩ := exists_populated_row h
  obtain ⟨y, t, hy⟩ := List.exists_cons_of_ne_nil hrow
  intro hnil
  have hmem' : y ∈ rowData items :=
    List.mem_flatMap.mpr ⟨it, hmem, by rw [hy]; exact List.mem_cons_self y t⟩
  simp [hnil] at hmem'

/-- The first component of `finalize` is the accumulated row list. -/
theorem finalize_fst (maxR : Nat) (d : List Row) (tc : Option Nat) (r : Nat) :
    (finalize maxR d tc r).1 = d := by
  cases tc with
  | none => rfl
  | some T =>
    simp only [finalize]
    split <;> rfl

/-- The middle component of `finalize` is the expected total. -/
theorem finalize_tc (maxR : Nat) (d : List Row) (tc : Option Nat) (r : Nat) :
    (finalize maxR d tc r).2.1 = tc := by
  cases tc with
  | none => rfl
  | some T =>
    simp only [finalize]
    split <;> rfl

/-- The `is_complete` component of `finalize` is true exactly when the total
is unknown or `199·T ≤ 200·collected`. -/
theorem finalize_complete_iff (maxR : Nat) (d : List Row) (tc : Option Nat) (r : Nat) :
    (finalize maxR d tc r).2.2 = true ↔
      tc = none ∨ ∃ T, tc = some T ∧ 199 * T ≤ 200 * d.length := by
  cases tc with
  | none => simp [finalize]
  | some T =>
    simp only [finalize, Option.some.injEq, reduceCtorEq, false_or]
    split
    · rename_i hcond
      simp only [Bool.false_eq_true, false_iff, not_exists, not_and]
      intro T' hT'
      subst hT'
      omega
    · simp only [decide_eq_true_eq]
      constructor
      · rintro (rfl | h)
        · exact ⟨0, rfl, by omega⟩
        · exact ⟨T, rfl, h⟩
      · rintro ⟨T', hT', hle⟩
        cases hT'
        exact Or.inr hle

/-- Every terminating run of the crawl loop returns a `finalize` value. -/
theorem crawlLoop_eq_finalize (maxR mR : Nat) (server : Nat → Resp) :
    ∀ (fuel : Nat) (s : CrawlState) (r : Nat) (res : CrawlResult),
      crawlLoop maxR mR server fuel s r = some res →
      ∃ d tc r', res = finalize maxR d tc r' := by
  intro fuel
  induction fuel with
  | zero => intro s r res h; simp [crawlLoop] at h
  | succ n ih =>
    intro s r res h
    rw [crawlLoop] at h
    cases hstep : step mR server s with
    | cont s' =>
      simp only [hstep] at h
      exact ih s' r res h
    | done s' =>
      simp only [hstep] at h
      exact ⟨s'.allData, s'.totalCount, r, (Option.some.inj h).symm⟩
    | retryEx s' =>
      simp only [hstep] at h
      split at h
      · exact ih _ _ _ h
      · exact ⟨s'.allData, s'.totalCount, r, (Option.some.inj h).symm⟩

/-- Equivalence between the exact integer threshold and the claim's
ceiling formulation of the 99.5% completion test. -/
theorem threshold_iff_ceil (T N : Nat) :
    ⌈(995 / 1000 : ℚ) * (T : ℚ)⌉ ≤ (N : ℤ) ↔ 199 * T ≤ 200 * N := by
  rw [Int.ceil_le]
  rw [div_mul_eq_mul_div, div_le_iff₀ (by norm_num : (0 : ℚ) < 1000)]
  rw [show ((199 * T ≤ 200 * N) ↔ ((199 * T : ℕ) : ℚ) ≤ ((200 * N : ℕ) : ℚ)) from Nat.cast_le.symm]
  push_cast
  constructor <;> intro h <;> nlinarith

/-- Every state produced by `stepTail` carries the given `data` and `tc`. -/
theorem stepTail_shape (mR : Nat) (server : Nat → Resp) (s : CrawlState)
    (rows data : List Row) (tc : Option Nat) (ec : Nat) (s' : CrawlState)
    (h : stepTail mR server s rows data tc ec = .cont s' ∨
      stepTail mR server s rows data tc ec = .done s' ∨
      stepTail mR server s rows data tc ec = .retryEx s') :
    s'.allData = data ∧ s'.totalCount = tc := by
  unfold stepTail at h
  split at h
  · split at h <;> rcases h with h | h | h <;> cases h <;> exact ⟨rfl, rfl⟩
  · split at h
    · split at h <;> rcases h with h | h | h <;> cases h <;> exact ⟨rfl, rfl⟩
    · rcases h with h | h | h <;> cases h <;> exact ⟨rfl, rfl⟩

/-- Any state produced by one loop iteration either leaves `all_data` and
`total_count` unchanged, or is produced by a valid nonempty page, in which
case its `all_data` is the old one extended by that page's rows. -/
theorem step_shape (mR : Nat) (server : Nat → Resp) (s s' : CrawlState)
    (h : step mR server s = .cont s' ∨ step mR server s = .done s' ∨
      step mR server s = .retryEx s') :
    (s'.allData = s.allData ∧ s'.totalCount = s.totalCount) ∨
      ∃ items, server s.fidx = .ok (.withQ items) ∧
        is_empty_response (.withQ items) = false ∧
        s'.allData = s.allData ++ rowData items := by
  rw [step] at h
  cases hsrv : server s.fidx <;> simp only [hsrv] at h
  case err =>
    rcases h with h | h | h <;> cases h
    exact Or.inl ⟨rfl, rfl⟩
  case http code =>
    split at h <;> rcases h with h | h | h <;> cases h <;> exact Or.inl ⟨rfl, rfl⟩
  case emptyText =>
    split at h <;> rcases h with h | h | h <;> cases h <;> exact Or.inl ⟨rfl, rfl⟩
  case parseErr =>
    rcases h with h | h | h <;> cases h
    exact Or.inl ⟨rfl, rfl⟩
  case ok j =>
    split at h
    · split at h <;> rcases h with h | h | h <;> cases h <;> exact Or.inl ⟨rfl, rfl⟩
    · rename_i hne
      cases j with
      | noQ t =>
        simp only at h
        rcases h with h | h | h <;> cases h
        exact Or.inl ⟨rfl, rfl⟩
      | withQ items =>
        have hne' : is_empty_response (.withQ items) = false := by
          simpa using hne
        have hrows : rowData items ≠ [] := rowData_ne_nil hne'
        refine Or.inr ⟨items, rfl, hne', ?_⟩
        simp only [if_neg hrows] at h
        split at h
        · split at h
          · rcases h with h | h | h <;> cases h <;> rfl
          · split at h
            · split at h <;> rcases h with h | h | h <;> cases h <;> rfl
            · split at h
              · rcases h with h | h | h <;> cases h <;> rfl
              · exact (stepTail_shape mR server s _ _ _ _ s' h).1
        · exact (stepTail_shape mR server s _ _ _ _ s' h).1

/-- Unfolding of the loop when the iteration continues. -/
theorem crawlLoop_step_cont (maxR mR : Nat) (server : Nat → Resp) (fuel : Nat)
    (s s' : CrawlState) (r : Nat) (hstep : step mR server s = .cont s') :
    crawlLoop maxR mR server (fuel + 1) s r = crawlLoop maxR mR server fuel s' r := by
  rw [crawlLoop, hstep]

/-- Unfolding of the loop when the iteration breaks. -/
theorem crawlLoop_step_done (maxR mR : Nat) (server : Nat → Resp) (fuel : Nat)
    (s s' : CrawlState) (r : Nat) (hstep : step mR server s = .done s') :
    crawlLoop maxR mR server (fuel + 1) s r =
      some (finalize maxR s'.allData s'.totalCount r) := by
  rw [crawlLoop, hstep]

/-- Unfolding of the loop at a retryable failure. -/
theorem crawlLoop_step_retryEx (maxR mR : Nat) (server : Nat → Resp) (fuel : Nat)
    (s s' : CrawlState) (r : Nat) (hstep : step mR server s = .retryEx s') :
    crawlLoop maxR mR server (fuel + 1) s r =
      if r < maxR then crawlLoop maxR mR server fuel (freshState s'.fidx) (r + 1)
      else some (finalize maxR s'.allData s'.totalCount r) := by
  rw [crawlLoop, hstep]

/-- An incomplete `finalize` value has a known expected total, and then the
data/total invariant forces a nonempty row list. -/
theorem finalize_false_shape (maxR : Nat) (d : List Row) (tc : Option Nat) (r : Nat)
    (hinv : tc ≠ none → d ≠ []) (hfalse : (finalize maxR d tc r).2.2 = false) :
    tc ≠ none ∧ d ≠ [] := by
  cases tc with
  | none => simp [finalize] at hfalse
  | some T => exact ⟨by simp, hinv (by simp)⟩

/-- A terminating crawl whose starting state satisfies the data/total
invariant (a known total implies accumulated rows) returns, when incomplete,
a known total and a nonempty row list. -/
theorem crawlLoop_incomplete_shape (maxR mR : Nat) (server : Nat → Resp) :
    ∀ (fuel : Nat) (s : CrawlState) (r : Nat) (res : CrawlResult),
      (s.totalCount ≠ none → s.allData ≠ []) →
      crawlLoop maxR mR server fuel s r = some res →
      res.2.2 = false → res.2.1 ≠ none ∧ res.1 ≠ [] := by
  intro fuel
  induction fuel with
  | zero => intro s r res _ h; simp [crawlLoop] at h
  | succ n ih =>
    intro s r res hinv h hfalse
    have hkeep : ∀ s', (step mR server s = .cont s' ∨ step mR server s = .done s' ∨
        step mR server s = .retryEx s') → s'.totalCount ≠ none → s'.allData ≠ [] := by
      intro s' hs'
      rcases step_shape mR server s s' hs' with ⟨ha, ht⟩ | ⟨items, _, hne, ha⟩
      · rw [ha, ht]; exact hinv
      · intro _
        rw [ha]
        intro hc
        exact rowData_ne_nil hne (List.append_eq_nil.mp hc).2
    rw [crawlLoop] at h
    cases hstep : step mR server s with
    | cont s' =>
      simp only [hstep] at h
      exact ih s' r res (hkeep s' (Or.inl hstep)) h hfalse
    | done s' =>
      simp only [hstep] at h
      have hres : res = finalize maxR s'.allData s'.totalCount r := (Option.some.inj h).symm
      subst hres
      have hsh := finalize_false_shape maxR s'.allData s'.totalCount r
        (hkeep s' (Or.inr (Or.inl hstep))) hfalse
      rw [finalize_tc, finalize_fst]
      exact hsh
    | retryEx s' =>
      simp only [hstep] at h
      split at h
      · exact ih _ _ res (by simp [freshState]) h hfalse
      · have hres : res = finalize maxR s'.allData s'.totalCount r := (Option.some.inj h).symm
        subst hres
        have hsh := finalize_false_shape maxR s'.allData s'.totalCount r
          (hkeep s' (Or.inr (Or.inr hstep))) hfalse
        rw [finalize_tc, finalize_fst]
        exact hsh

/-- On an empty-structure page with nothing accumulated, the iteration
resets the counter to 0 before incrementing it to 1 and continues. -/
theorem step_structServer (mR : Nat) (s : CrawlState) (hnil : s.allData = []) :
    step mR structServer s =
      .cont { s with emptyCount := 1, page := s.page + 1, fidx := s.fidx + 1 } := by
  rw [step]
  simp [structServer, is_empty_response, hnil]

/-- Against the all-empty-structure server, a state with no accumulated rows
never terminates, for any fuel. -/
theorem structServer_never_terminates (maxR mR : Nat) :
    ∀ (fuel : Nat) (s : CrawlState) (r : Nat), s.allData = [] →
      crawlLoop maxR mR structServer fuel s r = none := by
  intro fuel
  induction fuel with
  | zero => intros; rfl
  | succ n ih =>
    intro s r hnil
    rw [crawlLoop_step_cont maxR mR structServer n s _ r (step_structServer mR s hnil)]
    exact ih _ r hnil

/-- C1 (code bug): a unit whose server returns only empty-structure pages
(status-200 JSON bodies with the top-level `QWGJK` key but no populated row
lists) never terminates, for every fuel bound, retry count and stream
position — the counter reset at line 151 precedes the empty-structure
increment, so `empty_response_count` never reaches 2, contradicting the
claimed termination at the second consecutive empty response. -/
theorem empty_structure_unit_never_terminates (maxR mR fuel r fidx : Nat) :
    crawlLoop maxR mR structServer fuel (freshState fidx) r = none :=
  structServer_never_terminates maxR mR fuel (freshState fidx) r rfl

/-- A transport error always sends the iteration to the retry path. -/
theorem step_errServer (mR : Nat) (s : CrawlState) :
    step mR errServer s = .retryEx { s with fidx := s.fidx + 1 } := rfl

/-- With `retry_count + d = max_retries`, the all-error unit terminates as
soon as the fuel exceeds `d`, returning no rows, no total, complete. -/
theorem errServer_terminates (maxR mR : Nat) :
    ∀ (d r : Nat), r + d = maxR → ∀ (k fidx : Nat),
      crawlLoop maxR mR errServer (d + (k + 1)) (freshState fidx) r =
        some ([], none, true) := by
  intro d
  induction d with
  | zero =>
    intro r hr k fidx
    rw [show 0 + (k + 1) = k + 1 from by omega]
    rw [crawlLoop_step_retryEx maxR mR errServer k _ _ r (step_errServer mR _)]
    rw [if_neg (by omega)]
    rfl
  | succ d ih =>
    intro r hr k fidx
    rw [show d + 1 + (k + 1) = (d + (k + 1)) + 1 from by omega]
    rw [crawlLoop_step_retryEx maxR mR errServer _ _ _ r (step_errServer mR _)]
    rw [if_pos (by omega)]
    exact ih (r + 1) (by omega) k _

/-- With `retry_count + d = max_retries`, fuel `d` is not enough for the
all-error unit to finish: every unit of fuel is consumed by one attempt. -/
theorem errServer_fuel_short (maxR mR : Nat) :
    ∀ (d r : Nat), r + d = maxR → ∀ fidx,
      crawlLoop maxR mR errServer d (freshState fidx) r = none := by
  intro d
  induction d with
  | zero => intro r hr fidx; rfl
  | succ d ih =>
    intro r hr fidx
    rw [crawlLoop_step_retryEx maxR mR errServer d _ _ r (step_errServer mR _)]
    rw [if_pos (by omega)]
    exact ih (r + 1) (by omega) _

/-- C3 counterexample: at the all-transport-error unit with the default
configuration (`max_retries = 3`), the crawl terminates with
`is_complete = true` — not `false` as claimed — because line 325 evaluates
`not total_count` with `total_count = None`. -/
theorem all_errors_counterexample :
    crawl_data errServer 4 0 0 = some ([], none, true) ∧
      (crawl_data errServer 4 0 0).map (fun res => res.2.2) ≠ some false := by
  constructor <;> decide

/-- C3 (amended): a unit whose every fetch raises a transport error performs
exactly `max_retries` retries — fuel `max_retries` (one attempt per unit of
fuel) is insufficient while any larger fuel terminates — and returns an
empty row list with no total and `is_complete = true`; such a result passes
no ledger-append guard of any orchestrator mode, so it is never persisted. -/
theorem all_errors_exhausts_retries (maxR mR k fidx : Nat) :
    crawlLoop maxR mR errServer (maxR + (k + 1)) (freshState fidx) 0 =
      some ([], none, true) ∧
    crawlLoop maxR mR errServer maxR (freshState fidx) 0 = none ∧
    rangeModeGuard ([], none, true) = false ∧
    specificDateGuard ([], none, true) = false ∧
    retryModeGuard ([], none, true) = false :=
  ⟨errServer_terminates maxR mR maxR 0 (by omega) k fidx,
   errServer_fuel_short maxR mR maxR 0 (by omega) fidx, rfl, rfl, rfl⟩

/-- A retryable response makes the iteration take the retry path, advancing
only the fetch index. -/
theorem step_retryable (mR : Nat) (server : Nat → Resp) (s : CrawlState)
    (hr : isRetryableResp (server s.fidx) = true) :
    ∃ s', step mR server s = .retryEx s' ∧ s'.allData = s.allData ∧
      s'.totalCount = s.totalCount ∧ s'.fidx = s.fidx + 1 := by
  rw [step]
  cases hsrv : server s.fidx with
  | err => exact ⟨_, rfl, rfl, rfl, rfl⟩
  | http code =>
    rw [hsrv] at hr
    simp only [isRetryableResp, decide_eq_true_eq] at hr
    refine ⟨{ s with fidx := s.fidx + 1 }, ?_, rfl, rfl, rfl⟩
    show (if code = 300 then StepRes.done { s with fidx := s.fidx + 1 }
      else StepRes.retryEx { s with fidx := s.fidx + 1 }) =
        StepRes.retryEx { s with fidx := s.fidx + 1 }
    rw [if_neg hr]
  | emptyText =>
    rw [hsrv] at hr
    simp [isRetryableResp] at hr
  | parseErr => exact ⟨_, rfl, rfl, rfl, rfl⟩
  | ok j =>
    rw [hsrv] at hr
    simp [isRetryableResp] at hr

/-- C5: a retryable failure (transport exception, HTTP 500, any other
non-200/non-300 status, or a JSON decode error) with remaining retry budget
restarts the entire unit crawl from page 1 with empty accumulated rows (the
fresh state), so only the final attempt's result is returned; with the
budget exhausted, the crawl terminates with whatever the current attempt
accumulated before the failure. -/
theorem retryable_failure_restarts_crawl (maxR mR : Nat) (server : Nat → Resp)
    (fuel : Nat) (s : CrawlState) (r : Nat)
    (hr : isRetryableResp (server s.fidx) = true) :
    (r < maxR →
      crawlLoop maxR mR server (fuel + 1) s r =
        crawlLoop maxR mR server fuel (freshState (s.fidx + 1)) (r + 1)) ∧
    (¬ r < maxR →
      crawlLoop maxR mR server (fuel + 1) s r =
        some (finalize maxR s.allData s.totalCount r)) := by
  obtain ⟨s', hstep, ha, ht, hf⟩ := step_retryable mR server s hr
  rw [crawlLoop_step_retryEx maxR mR server fuel s s' r hstep]
  constructor
  · intro hlt
    rw [if_pos hlt, hf]
  · intro hge
    rw [if_neg hge, ha, ht]

/-- Witness for C5: the retry-exhausted branch at a concrete input. -/
theorem retryable_failure_restarts_crawl_witness :
    crawlLoop 3 1000 errServer 1 (freshState 0) 5 = some ([], none, true) := by
  have h := (retryable_failure_restarts_crawl 3 1000 errServer 0 (freshState 0) 5
    (by decide)).2 (by omega)
  exact h.trans (by decide)

/-- A status-300 response breaks out of the loop at once. -/
theorem step_http300 (mR : Nat) (server : Nat → Resp) (s : CrawlState)
    (h300 : server s.fidx = .http 300) :
    step mR server s = .done { s with fidx := s.fidx + 1 } := by
  rw [step, h300]
  simp

/-- C8: a fetch answered with HTTP status 300 terminates the unit crawl
immediately — one loop unfolding yields the final value, with the retry
count unchanged (no retry) — and the returned row list is exactly the rows
accumulated so far. -/
theorem status_300_terminates_immediately (maxR mR : Nat) (server : Nat → Resp)
    (fuel : Nat) (s : CrawlState) (r : Nat)
    (h300 : server s.fidx = .http 300) :
    crawlLoop maxR mR server (fuel + 1) s r =
      some (finalize maxR s.allData s.totalCount r) ∧
    (finalize maxR s.allData s.totalCount r).1 = s.allData := by
  constructor
  · rw [crawlLoop_step_done maxR mR server fuel s _ r (step_http300 mR server s h300)]
  · exact finalize_fst maxR s.allData s.totalCount r

/-- Witness for C8: a unit that already accumulated rows `[7, 8]` with an
expected total of 10 terminates at once on status 300, keeping its rows. -/
theorem status_300_witness :
    crawlLoop 3 1000 srv300 1 ⟨[7, 8], 5, some 10, 0, 0⟩ 0 =
      some ([7, 8], some 10, false) := by
  have h := (status_300_terminates_immediately 3 1000 srv300 0
    ⟨[7, 8], 5, some 10, 0, 0⟩ 0 rfl).1
  exact h.trans (by decide)

/-- C2: for every terminating unit crawl, `is_complete` is true if and only
if the expected total is unknown (`None`) or the collected row count is at
least `ceil(expected × 0.995)` (equivalently `199·expected ≤ 200·collected`
for integers; and when the expected total is the integer 0 the bound is 0,
which always holds). -/
theorem crawl_is_complete_iff (maxR mR : Nat) (server : Nat → Resp)
    (fuel : Nat) (s : CrawlState) (r : Nat) (res : CrawlResult)
    (h : crawlLoop maxR mR server fuel s r = some res) :
    res.2.2 = true ↔
      res.2.1 = none ∨ ∃ T, res.2.1 = some T ∧
        ⌈(995 / 1000 : ℚ) * (T : ℚ)⌉ ≤ (res.1.length : ℤ) := by
  obtain ⟨d, tc, r', rfl⟩ := crawlLoop_eq_finalize maxR mR server fuel s r res h
  rw [finalize_complete_iff, finalize_fst, finalize_tc]
  simp only [threshold_iff_ceil]

/-- Witness for C2 at the short-page unit: the incomplete result
`(10 rows, expected 100)` evaluates the equivalence concretely. -/
theorem crawl_is_complete_iff_witness :
    (((List.range 10, some 100, false) : CrawlResult).2.2 = true ↔
      ((List.range 10, some 100, false) : CrawlResult).2.1 = none ∨
        ∃ T, ((List.range 10, some 100, false) : CrawlResult).2.1 = some T ∧
          ⌈(995 / 1000 : ℚ) * (T : ℚ)⌉ ≤
            ((((List.range 10, some 100, false) : CrawlResult)).1.length : ℤ)) :=
  crawl_is_complete_iff 3 1000 srvShort 1 (freshState 0) 0
    (List.range 10, some 100, false) (by decide)

/-- C6: in every orchestrator mode — range scan (`rangeModeGuard`),
specific date (`specificDateGuard`) and retry-incomplete (`retryModeGuard`)
— a unit whose ledger-append guard fires has `is_complete = false` and a
strictly positive collected row count: results with a known total always
carry rows, so the weaker guards of the specific-date and retry modes still
never persist a zero-collected unit. -/
theorem ledger_append_only_incomplete_with_rows (maxR mR : Nat) (server : Nat → Resp)
    (fuel r fidx : Nat) (res : CrawlResult)
    (h : crawlLoop maxR mR server fuel (freshState fidx) r = some res)
    (hg : (rangeModeGuard res || specificDateGuard res || retryModeGuard res) = true) :
    res.2.2 = false ∧ 0 < res.1.length := by
  have hfalse : res.2.2 = false := by
    simp only [rangeModeGuard, specificDateGuard, retryModeGuard, Bool.or_eq_true,
      Bool.and_eq_true, Bool.not_eq_true'] at hg
    tauto
  have hshape := crawlLoop_incomplete_shape maxR mR server fuel (freshState fidx) r res
    (by simp [freshState]) h hfalse
  exact ⟨hfalse, List.length_pos.mpr hshape.2⟩

/-- Witness for C6 at the short-page unit, whose result is incomplete with
10 collected rows. -/
theorem ledger_append_only_incomplete_with_rows_witness :
    ((List.range 10, some 100, false) : CrawlResult).2.2 = false ∧
      0 < ((List.range 10, some 100, false) : CrawlResult).1.length :=
  ledger_append_only_incomplete_with_rows 3 1000 srvShort 1 0 0
    (List.range 10, some 100, false) (by decide) (by decide)

/-- C10: a parsed response that contains the `QWGJK` key and is not
classified empty has at least one element with a populated (`truthy`) `row`
list; consequently the element list is nonempty (the page-1 access to its
first element cannot fail) and the concatenated row list is nonempty (the
crawler's empty-`row_data` branches are unreachable for such responses). -/
theorem valid_response_rows_nonempty (items : List QItem)
    (h : is_empty_response (.withQ items) = false) :
    (∃ it ∈ items, ∃ l, it.row = some l ∧ l ≠ []) ∧ items ≠ [] ∧ rowData items ≠ [] := by
  refine ⟨?_, items_ne_nil h, rowData_ne_nil h⟩
  obtain ⟨it, hmem, hrow⟩ := exists_populated_row h
  refine ⟨it, hmem, ?_⟩
  cases hr : it.row with
  | none => rw [hr] at hrow; simp at hrow
  | some l =>
    refine ⟨l, rfl, ?_⟩
    rw [hr] at hrow
    simpa using hrow

/-- Witness for C10 at a one-element response carrying the row list `[5]`. -/
theorem valid_response_rows_nonempty_witness :
    (∃ it ∈ [(⟨some [5], none⟩ : QItem)], ∃ l, it.row = some l ∧ l ≠ []) ∧
      ([(⟨some [5], none⟩ : QItem)] ≠ []) ∧ rowData [(⟨some [5], none⟩ : QItem)] ≠ [] :=
  valid_response_rows_nonempty [⟨some [5], none⟩] (by decide)

/-- C9: the month-end expansion of the range 2023/01–2023/12 yields exactly
12 units, one per month, each dated the last calendar day of its month as
computed from the Gregorian calendar (2023 is not a leap year). -/
theorem month_end_expansion_2023 :
    expandMonthEnd 2023 2023 1 12 =
      [(2023, 2023, 1, 31), (2023, 2023, 2, 28), (2023, 2023, 3, 31), (2023, 2023, 4, 30),
       (2023, 2023, 5, 31), (2023, 2023, 6, 30), (2023, 2023, 7, 31), (2023, 2023, 8, 31),
       (2023, 2023, 9, 30), (2023, 2023, 10, 31), (2023, 2023, 11, 30), (2023, 2023, 12, 31)] ∧
    (expandMonthEnd 2023 2023 1 12).length = 12 := by
  constructor <;> decide

/-- C7 counterexample: a range-scan run over the single unit 2023-01-31 that
collects it to completion produces an empty new-incomplete list, so the
ledger file is not rewritten (lines 715–719) and the stale record for that
very date survives the run — the date is not absent from the persisted
ledger. -/
theorem stale_ledger_counterexample :
    rangeNewLedger [("2023-01-31", 2023)] (fun _ => (List.range 100, some 100, true)) "t1" =
      [] ∧
    ledgerFileAfterRange [staleRecord]
        (rangeNewLedger [("2023-01-31", 2023)] (fun _ => (List.range 100, some 100, true))
          "t1") =
      [staleRecord] ∧
    "2023-01-31" ∈ (ledgerFileAfterRange [staleRecord]
        (rangeNewLedger [("2023-01-31", 2023)] (fun _ => (List.range 100, some 100, true))
          "t1")).map (fun rec => rec.date) := by
  refine ⟨rfl, rfl, ?_⟩
  show "2023-01-31" ∈ [staleRecord].map (fun rec => rec.date)
  simp [staleRecord]

/-- C7 (amended): the retry-incomplete flow overwrites the ledger file
unconditionally with exactly the still-incomplete units, each with
`previous_attempts` incremented, so dates whose retry completed are absent;
a range-scan run rewrites the file (dropping completed dates) only when at
least one unit of the run is incomplete — with zero incomplete units the
file is left untouched and stale records for the run's dates may remain. -/
theorem retry_flow_ledger_contents (f : IncompleteRecord → CrawlResult) (now : String)
    (ledger : List IncompleteRecord) :
    (∀ d, (∀ item ∈ ledger, item.date = d → (f item).2.2 = true) →
      d ∉ (ledgerFileAfterRetry f now ledger).map (fun rec => rec.date)) ∧
    (∀ rec ∈ ledgerFileAfterRetry f now ledger, ∃ item ∈ ledger,
      (f item).2.2 = false ∧
      rec = ⟨item.date, item.year, (f item).2.1, (f item).1.length, now,
        item.previous_attempts + 1⟩) ∧
    (∀ oldFile newIncomplete : List IncompleteRecord, newIncomplete ≠ [] →
      ledgerFileAfterRange oldFile newIncomplete = newIncomplete) := by
  refine ⟨?_, ?_, ?_⟩
  · intro d hall hmem
    rw [List.mem_map] at hmem
    obtain ⟨rec, hrec, hdate⟩ := hmem
    rw [ledgerFileAfterRetry, retryFlowNewLedger, List.mem_filterMap] at hrec
    obtain ⟨item, hitem, heq⟩ := hrec
    split at heq
    · exact Option.noConfusion heq
    · rename_i hni
      have hrecitem := (Option.some.inj heq).symm
      apply hni
      rw [hall item hitem (by rw [hrecitem] at hdate; exact hdate)]
  · intro rec hrec
    rw [ledgerFileAfterRetry, retryFlowNewLedger, List.mem_filterMap] at hrec
    obtain ⟨item, hitem, heq⟩ := hrec
    split at heq
    · exact Option.noConfusion heq
    · rename_i hni
      exact ⟨item, hitem, by simpa using hni, (Option.some.inj heq).symm⟩
  · intro oldFile newIncomplete hne
    rw [ledgerFileAfterRange, if_neg (by simpa using hne)]

/-- Witness for C7 at a concrete one-record ledger whose retry completes:
the date is dropped from the overwritten file. -/
theorem retry_flow_ledger_contents_witness :
    "2023-01-31" ∉ (ledgerFileAfterRetry (fun _ => ([], none, true)) "t1"
      [staleRecord]).map (fun rec => rec.date) :=
  (retry_flow_ledger_contents (fun _ => ([], none, true)) "t1" [staleRecord]).1
    "2023-01-31" (fun _ _ _ => rfl)

/-- Evaluation of a valid-page iteration that reaches the expected total:
exactly one verification fetch (the response at index `fidx + 1`) decides
between breaking, continuing at `page + 1`, and the exception path. -/
theorem step_total_reached (mR : Nat) (server : Nat → Resp) (s : CrawlState)
    (items : List QItem) (T : Nat)
    (hsrv : server s.fidx = .ok (.withQ items))
    (hne : is_empty_response (.withQ items) = false)
    (htc : (if s.page = 1 then scanHead items s.totalCount else s.totalCount) = some T)
    (hT : 0 < T)
    (hreach : T ≤ (s.allData ++ rowData items).length) :
    step mR server s =
      match classifyVerify (server (s.fidx + 1)) with
      | .finish => .done ⟨s.allData ++ rowData items, s.page, some T, 0, s.fidx + 2⟩
      | .more => .cont ⟨s.allData ++ rowData items, s.page + 1, some T, 0, s.fidx + 2⟩
      | .ex => .retryEx ⟨s.allData ++ rowData items, s.page, some T, 0, s.fidx + 2⟩ := by
  have hrows : rowData items ≠ [] := rowData_ne_nil hne
  simp only [step, hsrv, hne, Bool.false_eq_true, if_false, if_neg hrows, htc]
  rw [if_neg (by omega : ¬ T = 0), if_pos hreach]

/-- C4 (amended): when the expected total is known and positive and the
accumulated row count reaches it after a valid page, the crawler issues
exactly one verification fetch at `page + 1`; if that fetch is empty by
text or by structure the crawl terminates as fully collected
(`is_complete = true`), and if it contains data the crawler continues from
the state whose page is `page + 1` and whose rows are retained, so the
additional rows are appended rather than dropped.  The positivity
restriction is forced: a reported total of 0 is known and trivially
reached, yet line 206 raises `ZeroDivisionError` before the comparison at
line 209, so the crawl takes the retry path and issues no verification
fetch (see the counterexample below). -/
theorem verification_fetch_behaviour (maxR mR : Nat) (server : Nat → Resp)
    (fuel : Nat) (s : CrawlState) (r : Nat) (items : List QItem) (T : Nat)
    (hsrv : server s.fidx = .ok (.withQ items))
    (hne : is_empty_response (.withQ items) = false)
    (htc : (if s.page = 1 then scanHead items s.totalCount else s.totalCount) = some T)
    (hT : 0 < T)
    (hreach : T ≤ (s.allData ++ rowData items).length) :
    ((server (s.fidx + 1) = .emptyText ∨
        ∃ j2, server (s.fidx + 1) = .ok j2 ∧ is_empty_response j2 = true) →
      crawlLoop maxR mR server (fuel + 1) s r =
        some (s.allData ++ rowData items, some T, true)) ∧
    (∀ j2, server (s.fidx + 1) = .ok j2 → is_empty_response j2 = false →
      crawlLoop maxR mR server (fuel + 1) s r =
        crawlLoop maxR mR server fuel
          ⟨s.allData ++ rowData items, s.page + 1, some T, 0, s.fidx + 2⟩ r) := by
  have hstep := step_total_reached mR server s items T hsrv hne htc hT hreach
  constructor
  · intro hv
    have hcv : classifyVerify (server (s.fidx + 1)) = .finish := by
      rcases hv with hv | ⟨j2, hj2, hj2e⟩
      · rw [hv]; rfl
      · rw [hj2]; simp [classifyVerify, hj2e]
    rw [hcv] at hstep
    rw [crawlLoop_step_done maxR mR server fuel s _ r hstep]
    have hfin : finalize maxR (s.allData ++ rowData items) (some T) r =
        (s.allData ++ rowData items, some T, true) := by
      rw [finalize]
      rw [if_neg (by omega)]
      rw [decide_eq_true (Or.inr (by omega))]
    exact congrArg some hfin
  · intro j2 hj2 hj2e
    have hcv : classifyVerify (server (s.fidx + 1)) = .more := by
      rw [hj2]; simp [classifyVerify, hj2e]
    rw [hcv] at hstep
    exact crawlLoop_step_cont maxR mR server fuel s _ r hstep

/-- Witness for C4: page 1 reports total 2 with rows `[1, 2]`; the empty
verification fetch lets the unit finish fully collected. -/
theorem verification_fetch_behaviour_witness :
    crawlLoop 3 1000 srvC4 1 (freshState 0) 0 = some ([1, 2], some 2, true) := by
  have h := (verification_fetch_behaviour 3 1000 srvC4 0 (freshState 0) 0
    [⟨some [1, 2], some [some 2]⟩] 2 (by decide) (by decide) (by decide) (by decide)
    (by decide)).1 (Or.inl (by decide))
  exact h.trans (by decide)

/-- C4 counterexample: on the unit whose page 1 is a valid data-bearing
page reporting `list_total_count = 0`, the expected total is known
(`some 0`, per the head scan) and trivially reached by the accumulated row
count, yet the iteration takes the retry path — `ZeroDivisionError` at
line 206 — advancing the fetch index by only 1 (no verification fetch is
issued), instead of the verification fetch followed by a
terminate-as-complete or a continue at `page + 1` that the claim requires;
the data-bearing next page is never consumed and the crawl finally returns
the single row of the last attempt. -/
theorem verification_fetch_T0_counterexample :
    is_empty_response (.withQ [⟨some [1], some [some 0]⟩]) = false ∧
    (if (freshState 0).page = 1
      then scanHead [⟨some [1], some [some 0]⟩] (freshState 0).totalCount
      else (freshState 0).totalCount) = some 0 ∧
    0 ≤ ((freshState 0).allData ++ rowData [⟨some [1], some [some 0]⟩]).length ∧
    step 1000 srvT0 (freshState 0) = .retryEx ⟨[1], 1, some 0, 0, 1⟩ ∧
    crawl_data srvT0 4 0 0 = some ([1], some 0, true) := by
  refine ⟨by decide, by decide, by decide, by decide, by decide⟩

end Lofin
